import Mathlib

/-!
Verification of the medication scheduling and compliance module of the
dogi-guard repository.

The embedding models JavaScript `Date` values in a fixed UTC-offset world:
a calendar date is a `Ymd` triple, an epoch timestamp is an integer count
of milliseconds, and calendar/day-count conversions are given by the
standard proleptic-Gregorian bijection (`daysFromCivil` / `civilFromDays`,
the algorithm used by civil-calendar libraries).  All integer division in
this file is `Int.ediv` (the `/` notation), which is floor division for
the positive divisors used here.

Source functions embedded below:
* `calculateAge`, `calculateDDay`, `formatDate`, `getDDayColor`,
  `getDDayStatus` from the date-utility module,
* `calculateNextDoseDate` from `MedicationRecordService`,
* `calculateNextHeartworkDate` from `utils/validation.ts`,
* `get_medication_stats` / `recent_medication_records` timing logic from
  `database/updated-schema.sql`.  The statistics query is statically
  invalid PostgreSQL — it nests `LAG(...) OVER (...)` inside `AVG` and
  orders the window by the ungrouped `recorded_date` — so invoking the
  function raises at parse analysis on every call; `getMedicationStatsCall`
  models that execution behaviour, while `statsFor`/`medicationStats`
  capture the computation the query text intends (never produced by the
  function as written).
-/

/-- A calendar date: year, month (1–12) and day of month (1–31).
Fields are integers so that the arithmetic of the JavaScript source
(`getFullYear`, `getMonth`, `getDate` and their differences) can be
mirrored without coercion noise; JavaScript's `getMonth` is 0-based but
only month differences and comparisons occur in the source, which are
invariant under the basing. -/
structure Ymd where
  year : Int
  month : Int
  day : Int
deriving DecidableEq, Repr

/-- Day count of a civil date (days since 1970-01-01 in the proleptic
Gregorian calendar); the standard era-based algorithm. -/
def daysFromCivil (y m d : Int) : Int :=
  let yAdj := y - (if 2 < m then 0 else 1)
  let era := yAdj / 400
  let yoe := yAdj - era * 400
  let doy := (153 * (m + (if 2 < m then -3 else 9)) + 2) / 5 + d - 1
  let doe := yoe * 365 + yoe / 4 - yoe / 100 + doy
  era * 146097 + doe - 719468

/-- Year-of-era recovered from day-of-era, `0 ≤ doe ≤ 146096`. -/
def yoeOfDoe (doe : Int) : Int :=
  (doe - doe / 1460 + doe / 36524 - doe / 146096) / 365

/-- Day-of-year (0-based, March-first year) recovered from day-of-era. -/
def doyOfDoe (doe : Int) : Int :=
  doe - (365 * yoeOfDoe doe + yoeOfDoe doe / 4 - yoeOfDoe doe / 100)

/-- Civil date of a day count: inverse of `daysFromCivil`. -/
def civilFromDays (z : Int) : Ymd :=
  let era := (z + 719468) / 146097
  let doe := (z + 719468) % 146097
  let yoe := yoeOfDoe doe
  let doy := doyOfDoe doe
  let mp := (5 * doy + 2) / 153
  let d := doy - (153 * mp + 2) / 5 + 1
  let m := mp + (if mp < 10 then 3 else -9)
  ⟨yoe + era * 400 + (if m ≤ 2 then 1 else 0), m, d⟩

/-- Within one century of an era (`c`-th century, offset `r`), the
year-of-century recovered by the division formula is in `[0, 99]` and
brackets `r` between the start of that year and at most 365 days later.
Proved by splitting the century into 4-year blocks of 1461 days. -/
theorem century_bounds (c r : Int) (hc : 0 ≤ c) (hc3 : c ≤ 3)
    (hr : 0 ≤ r) (hr36524 : r < 36524) :
    0 ≤ (r - (24 * c + r) / 1460) / 365 ∧
    (r - (24 * c + r) / 1460) / 365 ≤ 99 ∧
    365 * ((r - (24 * c + r) / 1460) / 365)
      + ((r - (24 * c + r) / 1460) / 365) / 4 ≤ r ∧
    r ≤ 365 * ((r - (24 * c + r) / 1460) / 365)
      + ((r - (24 * c + r) / 1460) / 365) / 4 + 365 := by
  have h1 : (24 * c + r) / 1460 = r / 1461 + (r / 1461 + r % 1461 + 24 * c) / 1460 := by
    omega
  have h2 : 0 ≤ (r / 1461 + r % 1461 + 24 * c) / 1460 ∧
      (r / 1461 + r % 1461 + 24 * c) / 1460 ≤ 1 := by
    omega
  have h3 : (r - (r / 1461 + (r / 1461 + r % 1461 + 24 * c) / 1460)) / 365
      = 4 * (r / 1461) + (r % 1461 - (r / 1461 + r % 1461 + 24 * c) / 1460) / 365 := by
    omega
  have h4 : 0 ≤ (r % 1461 - (r / 1461 + r % 1461 + 24 * c) / 1460) / 365 ∧
      (r % 1461 - (r / 1461 + r % 1461 + 24 * c) / 1460) / 365 ≤ 3 := by
    omega
  have h5 : (4 * (r / 1461) + (r % 1461 - (r / 1461 + r % 1461 + 24 * c) / 1460) / 365) / 4
      = r / 1461 := by
    omega
  rw [h1, h3]
  omega

/-- Bounds of the era-level reconstruction: for a day-of-era in
`[0, 146096]` the recovered year-of-era lies in `[0, 399]` and the
recovered day-of-year in `[0, 365]`. -/
theorem era_bounds (doe : Int) (h0 : 0 ≤ doe) (h1 : doe ≤ 146096) :
    (0 ≤ yoeOfDoe doe ∧ yoeOfDoe doe ≤ 399) ∧
    (0 ≤ doyOfDoe doe ∧ doyOfDoe doe ≤ 365) := by
  unfold doyOfDoe yoeOfDoe
  rcases eq_or_lt_of_le h1 with heq | hlt
  · subst heq
    norm_num
  · have hc : 0 ≤ doe / 36524 ∧ doe / 36524 ≤ 3 := by omega
    have key := century_bounds (doe / 36524) (doe % 36524) hc.1 hc.2 (by omega) (by omega)
    set b := doe / 36524 with hb
    set y := (doe % 36524 - (24 * b + doe % 36524) / 1460) / 365 with hy
    have hj : doe / 1460 = 25 * b + (24 * b + doe % 36524) / 1460 := by
      omega
    have hk : doe / 146096 = 0 := by omega
    have hf : (doe - doe / 1460 + doe / 36524 - doe / 146096) / 365 = 100 * b + y := by
      rw [hj, hk, hy, ← hb]
      omega
    rw [hf]
    have h4 : (100 * b + y) / 4 = 25 * b + y / 4 := by omega
    have h100 : (100 * b + y) / 100 = b := by omega
    rw [h4, h100]
    omega

/-- Applying `daysFromCivil` to the triple produced by the day-of-era
reconstruction recovers the day count, given the `era_bounds` ranges. -/
theorem daysFromCivil_reconstruct (era doe yoe doy : Int)
    (hyoe0 : 0 ≤ yoe) (hyoe1 : yoe ≤ 399) (hdoy0 : 0 ≤ doy) (hdoy1 : doy ≤ 365)
    (hdoe : doy = doe - (365 * yoe + yoe / 4 - yoe / 100)) :
    daysFromCivil
      (yoe + era * 400
        + (if (5 * doy + 2) / 153 + (if (5 * doy + 2) / 153 < 10 then 3 else -9) ≤ 2
           then 1 else 0))
      ((5 * doy + 2) / 153 + (if (5 * doy + 2) / 153 < 10 then 3 else -9))
      (doy - (153 * ((5 * doy + 2) / 153) + 2) / 5 + 1)
    = era * 146097 + doe - 719468 := by
  have hmp0 : 0 ≤ (5 * doy + 2) / 153 := by omega
  have hmp1 : (5 * doy + 2) / 153 ≤ 11 := by omega
  simp only [daysFromCivil]
  split_ifs <;> ring_nf <;>
    first
    | omega
    | (rw [show ((yoe + era * 400 : Int)) / 400 = era by omega]; ring_nf; omega)

/-- The civil-date reconstruction is a right inverse of `daysFromCivil`:
for every integer day count `z`, converting to a civil date and back
yields `z`. -/
theorem daysFromCivil_civilFromDays (z : Int) :
    daysFromCivil (civilFromDays z).year (civilFromDays z).month (civilFromDays z).day
      = z := by
  have hb := era_bounds ((z + 719468) % 146097) (by omega) (by omega)
  have hrec := daysFromCivil_reconstruct ((z + 719468) / 146097)
      ((z + 719468) % 146097) (yoeOfDoe ((z + 719468) % 146097))
      (doyOfDoe ((z + 719468) % 146097)) hb.1.1 hb.1.2 hb.2.1 hb.2.2 rfl
  have hz : (z + 719468) / 146097 * 146097 + (z + 719468) % 146097 - 719468 = z := by
    omega
  rw [hz] at hrec
  exact hrec

/-- `daysFromCivil` is an affine function of the day-of-month argument. -/
theorem daysFromCivil_day (y m d : Int) :
    daysFromCivil y m d = daysFromCivil y m 1 + (d - 1) := by
  simp only [daysFromCivil]
  split_ifs <;> omega

/-- Day count of a calendar date (calendar order of dates is the order of
their day numbers). -/
def dayNumber (x : Ymd) : Int :=
  daysFromCivil x.year x.month x.day

/-- Model of JavaScript `Date.prototype.setDate v` (UTC): the day of month
is set to `v`, values outside the month overflowing into neighbouring
months per the calendar, i.e. the result is the date whose day count is
that of the first of the month plus `v - 1`. -/
def jsSetDate (x : Ymd) (v : Int) : Ymd :=
  civilFromDays (daysFromCivil x.year x.month 1 + (v - 1))

/-- `MedicationRecordService.calculateNextDoseDate`: parses `lastDoseDate`
(here already a calendar date), copies it and calls
`setDate(getDate() + intervalDays)`, returning the resulting calendar day
(the source serializes it back to a `YYYY-MM-DD` string). -/
def calculateNextDoseDate (lastDoseDate : Ymd) (intervalDays : Int) : Ymd :=
  jsSetDate lastDoseDate (lastDoseDate.day + intervalDays)

/-- `calculateNextDoseDate` with its TypeScript default argument
`intervalDays = 30`. -/
def calculateNextDoseDateDefault (lastDoseDate : Ymd) : Ymd :=
  calculateNextDoseDate lastDoseDate 30

/-- A JavaScript `Date` value split into its calendar day and its
time-of-day component (milliseconds past midnight). -/
structure JsDateTime where
  date : Ymd
  msOfDay : Int
deriving DecidableEq, Repr

/-- `setDate` on a full `Date` value: changes the calendar day only, the
time-of-day component is untouched. -/
def jsSetDateTime (x : JsDateTime) (v : Int) : JsDateTime :=
  ⟨jsSetDate x.date v, x.msOfDay⟩

/-- `calculateNextHeartworkDate` from `utils/validation.ts`: copies the
date and calls `setDate(getDate() + 30)`. -/
def calculateNextHeartworkDate (lastDate : JsDateTime) : JsDateTime :=
  jsSetDateTime lastDate (lastDate.date.day + 30)

theorem dayNumber_jsSetDate (x : Ymd) (v : Int) :
    dayNumber (jsSetDate x v) = daysFromCivil x.year x.month 1 + (v - 1) := by
  unfold dayNumber jsSetDate
  exact daysFromCivil_civilFromDays _

/-- `calculateNextDoseDate` advances the day count by exactly the
interval. -/
theorem dayNumber_calculateNextDoseDate (x : Ymd) (n : Int) :
    dayNumber (calculateNextDoseDate x n) = dayNumber x + n := by
  unfold calculateNextDoseDate
  rw [dayNumber_jsSetDate]
  unfold dayNumber
  rw [daysFromCivil_day x.year x.month x.day]
  ring

/-- Milliseconds in one day, as written in the source
(`1000 * 60 * 60 * 24`). -/
def oneDayMs : Int := 1000 * 60 * 60 * 24

/-- Model of `setHours(0, 0, 0, 0)` on an epoch-millisecond timestamp
(fixed UTC offset): truncate to the preceding midnight. -/
def jsSetHoursZero (t : Int) : Int := t - t % oneDayMs

/-- `Math.ceil (a / b)` for integer `a` and positive integer `b` (the
source divides two exact millisecond counts and applies `Math.ceil`). -/
def mathCeilDiv (a b : Int) : Int := -(-a / b)

/-- `calculateDDay` from the date-utility module: both the target date and
the current date are truncated to midnight, subtracted, divided by the
length of a day in milliseconds, and rounded with `Math.ceil`.  The
ambient `new Date()` of the source is the explicit `nowMs` argument. -/
def calculateDDay (targetDate nowMs : Int) : Int :=
  mathCeilDiv (jsSetHoursZero targetDate - jsSetHoursZero nowMs) oneDayMs

/-- The D-Day pipeline computes exactly the difference of the whole-day
indices of its two arguments. -/
theorem calculateDDay_eq_dayDiff (t n : Int) :
    calculateDDay t n = t / oneDayMs - n / oneDayMs := by
  unfold calculateDDay jsSetHoursZero mathCeilDiv oneDayMs
  omega

/-- Urgency tiers of `getDDayStatus`. -/
inductive DDayStatus
  | overdue
  | urgent
  | soon
  | safe
deriving DecidableEq, Repr

/-- `getDDayStatus` from the date-utility module. -/
def getDDayStatus (dDay : Int) : DDayStatus :=
  if dDay ≤ 0 then .overdue
  else if dDay ≤ 7 then .urgent
  else if dDay ≤ 14 then .soon
  else .safe

/-- `getDDayColor` from the date-utility module. -/
def getDDayColor (dDay : Int) : String :=
  if dDay ≤ 0 then "#FF3B30"
  else if dDay ≤ 7 then "#FF9500"
  else if dDay ≤ 14 then "#FFCC00"
  else "#34C759"

/-- The fixed tier-to-color table (red, orange, yellow, green). -/
def statusColor : DDayStatus → String
  | .overdue => "#FF3B30"
  | .urgent => "#FF9500"
  | .soon => "#FFCC00"
  | .safe => "#34C759"

/-- `calculateAge` from the date-utility module: year difference,
decremented when the reference month/day precedes the birth month/day.
JavaScript's `getMonth` is 0-based; only the month difference occurs,
which is basing-invariant. -/
def calculateAge (birthDate today : Ymd) : Int :=
  let age := today.year - birthDate.year
  let monthDiff := today.month - birthDate.month
  if monthDiff < 0 ∨ (monthDiff = 0 ∧ today.day < birthDate.day) then age - 1 else age

/-- Calendar (lexicographic) order on date triples. -/
def ymdLe (a b : Ymd) : Prop :=
  a.year < b.year ∨
    (a.year = b.year ∧ (a.month < b.month ∨ (a.month = b.month ∧ a.day ≤ b.day)))

/-- `a`'s month/day falls strictly before `b`'s month/day within a year. -/
def monthDayLt (a b : Ymd) : Prop :=
  a.month < b.month ∨ (a.month = b.month ∧ a.day < b.day)

/-- The same calendar month/day one year later. -/
def yearSucc (x : Ymd) : Ymd := ⟨x.year + 1, x.month, x.day⟩

/-- English short month names used by the `en-US` medium date format. -/
def monthShortName (m : Int) : String :=
  if m = 1 then "Jan" else if m = 2 then "Feb" else if m = 3 then "Mar"
  else if m = 4 then "Apr" else if m = 5 then "May" else if m = 6 then "Jun"
  else if m = 7 then "Jul" else if m = 8 then "Aug" else if m = 9 then "Sep"
  else if m = 10 then "Oct" else if m = 11 then "Nov" else "Dec"

/-- `formatDate` from the date-utility module: a `ko` locale argument
selects the `ko-KR` numeric medium format, anything else the `en-US`
medium format (model of `toLocaleDateString` with the source's fixed
options). -/
def formatDate (date : Ymd) (locale : String) : String :=
  if locale == "ko" then
    toString date.year ++ ". " ++ toString date.month ++ ". " ++ toString date.day ++ "."
  else
    monthShortName date.month ++ " " ++ toString date.day ++ ", " ++ toString date.year

/-- Proleptic-Gregorian leap-year rule. -/
def isLeapYear (y : Int) : Bool :=
  (y % 4 == 0 && y % 100 != 0) || y % 400 == 0

/-- Number of days in a month of a given year. -/
def daysInMonth (y m : Int) : Int :=
  if m = 2 then (if isLeapYear y then 29 else 28)
  else if m = 4 ∨ m = 6 ∨ m = 9 ∨ m = 11 then 30
  else 31

/-- Split a character list at each `-`. -/
def splitDash : List Char → List (List Char)
  | [] => [[]]
  | c :: rest =>
    if c = Char.ofNat 45 then [] :: splitDash rest
    else
      match splitDash rest with
      | g :: gs => (c :: g) :: gs
      | [] => [[c]]

/-- Read a nonempty all-digit character list as a natural number. -/
def parseNatAux : List Char → Nat → Option Nat
  | [], acc => some acc
  | c :: rest, acc =>
    if c.isDigit then parseNatAux rest (acc * 10 + (c.toNat - 48)) else none

/-- Read a digit string as a natural number (`none` on the empty list or
any non-digit character). -/
def parseNatDigits (cs : List Char) : Option Nat :=
  match cs with
  | [] => none
  | _ => parseNatAux cs 0

/-- Model of the ECMAScript date parser (`new Date(string)`) restricted to
the Date Time String Format date-only form `YYYY-MM-DD`; strings not of
that form, and nonexistent calendar dates, give Invalid Date (`none`). -/
def parseIsoDate (s : String) : Option Ymd :=
  match splitDash s.toList with
  | [ys, ms, ds] =>
    if ys.length = 4 ∧ ms.length = 2 ∧ ds.length = 2 then
      match parseNatDigits ys, parseNatDigits ms, parseNatDigits ds with
      | some yn, some mn, some dn =>
        if 1 ≤ mn ∧ mn ≤ 12 ∧ 1 ≤ dn ∧ (dn : Int) ≤ daysInMonth yn mn then
          some ⟨yn, mn, dn⟩
        else none
      | _, _, _ => none
    else none
  | _ => none

/-- `calculateNextDoseDate` at the string level: `new Date(lastDoseDate)`
on an unparseable string yields Invalid Date and the final
`toISOString()` then throws a `RangeError`, modelled as `Except.error`. -/
def calculateNextDoseDateFromString (lastDoseDate : String) (intervalDays : Int) :
    Except String Ymd :=
  match parseIsoDate lastDoseDate with
  | some d => Except.ok (calculateNextDoseDate d intervalDays)
  | none => Except.error "RangeError: Invalid time value"

/-- One row of `medication_records` as seen by the statistics query:
the grouping key, the day number of `recorded_date` and the optional day
number of `scheduled_date`. -/
structure DoseRecord where
  medicationName : String
  recordedDate : Int
  scheduledDate : Option Int
deriving DecidableEq, Repr

/-- Per-medication row of the `get_medication_stats` result set. -/
structure MedicationStats where
  medicationName : String
  totalDoses : Nat
  onTimeDoses : Nat
  delayedDoses : Nat
  averageIntervalDays : Option ℚ
  complianceRate : Option ℚ
deriving DecidableEq, Repr

/-- `scheduled_date IS NOT NULL AND recorded_date = scheduled_date`. -/
def isOnTime (r : DoseRecord) : Bool :=
  match r.scheduledDate with
  | some s => r.recordedDate == s
  | none => false

/-- `scheduled_date IS NOT NULL AND recorded_date > scheduled_date`. -/
def isDelayed (r : DoseRecord) : Bool :=
  match r.scheduledDate with
  | some s => s < r.recordedDate
  | none => false

/-- `scheduled_date IS NOT NULL AND recorded_date < scheduled_date`: the
`ELSE 'early'` arm of the `recent_medication_records` timing CASE. -/
def isEarly (r : DoseRecord) : Bool :=
  match r.scheduledDate with
  | some s => r.recordedDate < s
  | none => false

/-- `scheduled_date IS NOT NULL`. -/
def hasScheduled (r : DoseRecord) : Bool :=
  r.scheduledDate.isSome

/-- The rows of one medication group (`GROUP BY medication_name`,
exact string match). -/
def recordsFor (records : List DoseRecord) (name : String) : List DoseRecord :=
  records.filter (fun r => r.medicationName == name)

/-- Recorded dates of a group in ascending order
(`ORDER BY recorded_date` of the `LAG` window). -/
def sortedDoseDates (l : List DoseRecord) : List Int :=
  (List.insertionSort (fun a b => a.recordedDate ≤ b.recordedDate) l).map
    DoseRecord.recordedDate

/-- `recorded_date - LAG(recorded_date)` for each row with a predecessor:
the consecutive differences of the ordered dates. -/
def consecutiveIntervals : List Int → List Int
  | a :: b :: rest => (b - a) :: consecutiveIntervals (b :: rest)
  | _ => []

/-- SQL `AVG` over a window column whose non-`NULL` values are `l`:
`NULL` on the empty list, otherwise the exact rational mean. -/
def sqlAvg (l : List Int) : Option ℚ :=
  if l.isEmpty then none else some ((l.sum : ℚ) / (l.length : ℚ))

/-- The `compliance_rate` CASE expression: `NULL` when no row of the group
has a `scheduled_date`, otherwise on-time count over scheduled count
times 100 (exact `NUMERIC` division). -/
def complianceRateOf (onTime scheduled : Nat) : Option ℚ :=
  if 0 < scheduled then some ((onTime : ℚ) / (scheduled : ℚ) * 100) else none

/-- The statistics row one medication group's portion of the
`get_medication_stats` query text denotes.  This is the intended
computation only: the query is invalid PostgreSQL (window function call
nested inside `AVG`; ungrouped `recorded_date` in the window `ORDER BY`),
so the source function never actually produces such a row — see
`getMedicationStatsCall`. -/
def statsFor (records : List DoseRecord) (name : String) : MedicationStats :=
  let group := recordsFor records name
  { medicationName := name
    totalDoses := group.length
    onTimeDoses := group.countP isOnTime
    delayedDoses := group.countP isDelayed
    averageIntervalDays := sqlAvg (consecutiveIntervals (sortedDoseDates group))
    complianceRate := complianceRateOf (group.countP isOnTime) (group.countP hasScheduled) }

/-- Names of the groups formed by `GROUP BY medication_name`, in first
occurrence order. -/
def medNames (records : List DoseRecord) : List String :=
  records.foldl (fun ns r => if r.medicationName ∈ ns then ns else ns ++ [r.medicationName]) []

/-- The result set the `get_medication_stats` query text denotes: one
`MedicationStats` row per distinct `medication_name`.  Intended
denotation only — the function as written raises on every invocation
instead of returning rows (`getMedicationStatsCall`). -/
def medicationStats (records : List DoseRecord) : List MedicationStats :=
  (medNames records).map (statsFor records)

/-- The parse-analysis error PostgreSQL raises for the statistics query:
`AVG(CASE WHEN LAG(...) OVER (...) ... END)` nests a window function
call inside an aggregate argument, which the analyzer rejects (the
window's `ORDER BY mr.recorded_date` over the ungrouped column is a
second, independent analysis error). -/
def sqlStatsError : String :=
  "aggregate function calls cannot contain window function calls"

/-- Model of invoking `get_medication_stats` through the database:
plpgsql parse-analyzes the `RETURN QUERY` statement when the function is
called, and the analysis rejects the query before any row is read, so
every invocation raises the same error — independent of the record
set, the empty set included. -/
def getMedicationStatsCall (_records : List DoseRecord) :
    Except String (List MedicationStats) :=
  Except.error sqlStatsError

instance (a b : Ymd) : Decidable (ymdLe a b) := by
  unfold ymdLe
  exact inferInstance

instance (a b : Ymd) : Decidable (monthDayLt a b) := by
  unfold monthDayLt
  exact inferInstance

/-- C2: the urgency tier function returns overdue iff the offset is at
most 0, urgent iff it is in (0, 7], soon iff in (7, 14], safe iff above
14 — so 0, 7, 8, 14, 15 map to overdue, urgent, soon, soon, safe — and
the color function returns the fixed color of the tier of the same
offset (overdue red #FF3B30, urgent orange #FF9500, soon yellow #FFCC00,
safe green #34C759). -/
theorem c2_urgency_tiers (d : Int) :
    (getDDayStatus d = DDayStatus.overdue ↔ d ≤ 0)
    ∧ (getDDayStatus d = DDayStatus.urgent ↔ 0 < d ∧ d ≤ 7)
    ∧ (getDDayStatus d = DDayStatus.soon ↔ 7 < d ∧ d ≤ 14)
    ∧ (getDDayStatus d = DDayStatus.safe ↔ 14 < d)
    ∧ getDDayStatus 0 = DDayStatus.overdue
    ∧ getDDayStatus 7 = DDayStatus.urgent
    ∧ getDDayStatus 8 = DDayStatus.soon
    ∧ getDDayStatus 14 = DDayStatus.soon
    ∧ getDDayStatus 15 = DDayStatus.safe
    ∧ getDDayColor d = statusColor (getDDayStatus d)
    ∧ statusColor DDayStatus.overdue = "#FF3B30"
    ∧ statusColor DDayStatus.urgent = "#FF9500"
    ∧ statusColor DDayStatus.soon = "#FFCC00"
    ∧ statusColor DDayStatus.safe = "#34C759" := by
  refine ⟨?_, ?_, ?_, ?_, by decide, by decide, by decide, by decide, by decide,
    ?_, rfl, rfl, rfl, rfl⟩ <;>
    simp only [getDDayStatus, getDDayColor] <;> split_ifs <;> simp [statusColor] <;> omega

/-- C3: `calculateDDay` is literally midnight truncation of both inputs
followed by ceiling division by one day of milliseconds, and that
pipeline equals the difference of the whole-day indices of the two
timestamps, so partial-day components never shift the result into a
different tier. -/
theorem c3_dday_formula (t n : Int) :
    calculateDDay t n = mathCeilDiv (jsSetHoursZero t - jsSetHoursZero n) oneDayMs
    ∧ calculateDDay t n = t / oneDayMs - n / oneDayMs :=
  ⟨rfl, calculateDDay_eq_dayDiff t n⟩

/-- C5: the day-offset computation is a whole-day round trip — a target
equal to the current date gives offset 0, and shifting the target by `k`
whole days shifts the offset by exactly `k`. -/
theorem c5_dday_shift (d k : Int) :
    calculateDDay d d = 0 ∧ calculateDDay (d + k * oneDayMs) d = k := by
  constructor
  · rw [calculateDDay_eq_dayDiff]
    omega
  · rw [calculateDDay_eq_dayDiff]
    unfold oneDayMs
    omega

/-- C7: `calculateAge` equals the year difference, decremented by one
exactly when the reference month/day precedes the birth month/day; for a
reference date not before the birth date the result is non-negative, and
advancing the reference by one year increments it by exactly one. -/
theorem c7_age (b r : Ymd) (h : ymdLe b r) :
    0 ≤ calculateAge b r
    ∧ calculateAge b (yearSucc r) = calculateAge b r + 1
    ∧ calculateAge b r
        = (if monthDayLt r b then r.year - b.year - 1 else r.year - b.year) := by
  unfold ymdLe at h
  dsimp only [calculateAge, yearSucc, monthDayLt]
  refine ⟨?_, ?_, ?_⟩ <;> split_ifs <;> omega

theorem c7_age_witness :
    ymdLe ⟨2020, 3, 15⟩ ⟨2024, 5, 1⟩
    ∧ 0 ≤ calculateAge ⟨2020, 3, 15⟩ ⟨2024, 5, 1⟩
    ∧ calculateAge ⟨2020, 3, 15⟩ (yearSucc ⟨2024, 5, 1⟩)
        = calculateAge ⟨2020, 3, 15⟩ ⟨2024, 5, 1⟩ + 1 :=
  ⟨by decide, (c7_age ⟨2020, 3, 15⟩ ⟨2024, 5, 1⟩ (by decide)).1,
    (c7_age ⟨2020, 3, 15⟩ ⟨2024, 5, 1⟩ (by decide)).2.1⟩

/-- C4: `calculateNextDoseDate` adds exactly `intervalDays` calendar days
to the last dose date: the day count of the result exceeds that of the
input by exactly the interval (so for a positive interval the result is
strictly after the input), `2025-01-15` plus 30 days is `2025-02-14`,
and the projector leaves the time-of-day component untouched. -/
theorem c4_next_dose (last : Ymd) (n : Int) (hn : 0 < n) :
    dayNumber (calculateNextDoseDate last n) = dayNumber last + n
    ∧ dayNumber last < dayNumber (calculateNextDoseDate last n)
    ∧ calculateNextDoseDate ⟨2025, 1, 15⟩ 30 = ⟨2025, 2, 14⟩
    ∧ (∀ dt : JsDateTime, (calculateNextHeartworkDate dt).msOfDay = dt.msOfDay) := by
  refine ⟨dayNumber_calculateNextDoseDate last n, ?_, by decide, fun dt => rfl⟩
  rw [dayNumber_calculateNextDoseDate]
  omega

theorem c4_next_dose_witness :
    0 < (30 : Int)
    ∧ dayNumber (calculateNextDoseDate ⟨2025, 1, 15⟩ 30) = dayNumber ⟨2025, 1, 15⟩ + 30
    ∧ calculateNextDoseDate ⟨2025, 1, 15⟩ 30 = ⟨2025, 2, 14⟩ :=
  ⟨by decide, (c4_next_dose ⟨2025, 1, 15⟩ 30 (by decide)).1,
    (c4_next_dose ⟨2025, 1, 15⟩ 30 (by decide)).2.2.1⟩

/-- C10: the two next-dose implementations agree — the validation
helper's hard-coded 30-day projection names the same calendar day as the
service method applied with interval 30 (also the service method's
default), and both denote the input date plus 30 calendar days. -/
theorem c10_next_dose_agreement (d : Ymd) (t : Int) :
    (calculateNextHeartworkDate ⟨d, t⟩).date = calculateNextDoseDate d 30
    ∧ calculateNextDoseDateDefault d = calculateNextDoseDate d 30
    ∧ dayNumber (calculateNextDoseDate d 30) = dayNumber d + 30 :=
  ⟨rfl, rfl, dayNumber_calculateNextDoseDate d 30⟩

/-- C8 (amended): the five date-utility functions and the heartworm
projector are total over their embedded input types, and the string-level
`calculateNextDoseDate` returns a value on every parseable date string;
it throws (models as `Except.error`) only on strings that do not denote
a date. -/
theorem c8_total_amended (s : String) (n : Int) (h : (parseIsoDate s).isSome = true) :
    (∃ r, calculateNextDoseDateFromString s n = Except.ok r)
    ∧ (∀ birth today : Ymd, ∃ a, calculateAge birth today = a)
    ∧ (∀ target now : Int, ∃ k, calculateDDay target now = k)
    ∧ (∀ x : Int,
        getDDayStatus x = DDayStatus.overdue ∨ getDDayStatus x = DDayStatus.urgent
        ∨ getDDayStatus x = DDayStatus.soon ∨ getDDayStatus x = DDayStatus.safe)
    ∧ (∀ x : Int,
        getDDayColor x = "#FF3B30" ∨ getDDayColor x = "#FF9500"
        ∨ getDDayColor x = "#FFCC00" ∨ getDDayColor x = "#34C759")
    ∧ (∀ d loc, ∃ out, formatDate d loc = out)
    ∧ (∀ dt : JsDateTime, ∃ next, calculateNextHeartworkDate dt = next) := by
  refine ⟨?_, fun b t => ⟨_, rfl⟩, fun a b => ⟨_, rfl⟩, ?_, ?_,
    fun d loc => ⟨_, rfl⟩, fun dt => ⟨_, rfl⟩⟩
  · cases hp : parseIsoDate s with
    | some d =>
      refine ⟨calculateNextDoseDate d n, ?_⟩
      unfold calculateNextDoseDateFromString
      rw [hp]
    | none =>
      rw [hp] at h
      simp at h
  · intro x
    unfold getDDayStatus
    split_ifs <;> simp
  · intro x
    unfold getDDayColor
    split_ifs <;> simp

theorem c8_total_amended_witness :
    (parseIsoDate "2025-01-15").isSome = true
    ∧ (∃ r, calculateNextDoseDateFromString "2025-01-15" 30 = Except.ok r) :=
  ⟨by decide, (c8_total_amended "2025-01-15" 30 (by decide)).1⟩

/-- C8 counterexample: `calculateNextDoseDate` is not total over all
well-typed (string) inputs — on the non-date string `"hello"`,
`new Date` yields Invalid Date and `toISOString()` throws a
`RangeError` (modelled as `Except.error`), so the function does not
return a value there. -/
theorem c8_throw_counterexample :
    calculateNextDoseDateFromString "hello" 30
      = Except.error "RangeError: Invalid time value" := rfl

theorem consecutiveIntervals_length (l : List Int) :
    (consecutiveIntervals l).length = l.length - 1 := by
  induction l with
  | nil => rfl
  | cons a l ih =>
    cases l with
    | nil => rfl
    | cons b rest =>
      simp only [consecutiveIntervals, List.length_cons] at ih ⊢
      omega

theorem sortedDoseDates_length (l : List DoseRecord) :
    (sortedDoseDates l).length = l.length := by
  unfold sortedDoseDates
  rw [List.length_map, List.length_insertionSort]

theorem sqlAvg_eq_none_iff (l : List Int) : sqlAvg l = none ↔ l.length = 0 := by
  cases l <;> simp [sqlAvg]

theorem sqlAvg_of_length_ne_zero (l : List Int) (h : l.length ≠ 0) :
    sqlAvg l = some ((l.sum : ℚ) / (l.length : ℚ)) := by
  cases l with
  | nil => simp at h
  | cons a t => simp [sqlAvg]

theorem countP_add_le_countP {α : Type} (p q s : α → Bool) :
    ∀ l : List α,
      (∀ a ∈ l, p a = true → s a = true) →
      (∀ a ∈ l, q a = true → s a = true) →
      (∀ a ∈ l, ¬(p a = true ∧ q a = true)) →
      l.countP p + l.countP q ≤ l.countP s := by
  intro l
  induction l with
  | nil =>
    intro _ _ _
    simp
  | cons a l ih =>
    intro hps hqs hpq
    simp only [List.countP_cons]
    have ht := ih (fun x hx => hps x (List.mem_cons_of_mem a hx))
      (fun x hx => hqs x (List.mem_cons_of_mem a hx))
      (fun x hx => hpq x (List.mem_cons_of_mem a hx))
    have h1 := hps a (List.mem_cons_self a l)
    have h2 := hqs a (List.mem_cons_self a l)
    have h3 := hpq a (List.mem_cons_self a l)
    have e1 : (if p a = true then 1 else 0) + (if q a = true then 1 else 0)
        ≤ (if s a = true then 1 else 0) := by
      cases hpa : p a <;> cases hqa : q a <;> cases hsa : s a <;> simp_all
    omega

theorem countP_add_lt_countP {α : Type} (p q s : α → Bool) :
    ∀ l : List α,
      (∀ a ∈ l, p a = true → s a = true) →
      (∀ a ∈ l, q a = true → s a = true) →
      (∀ a ∈ l, ¬(p a = true ∧ q a = true)) →
      (∃ a ∈ l, s a = true ∧ p a = false ∧ q a = false) →
      l.countP p + l.countP q < l.countP s := by
  intro l
  induction l with
  | nil =>
    intro _ _ _ hex
    simp at hex
  | cons a l ih =>
    intro hps hqs hpq hex
    simp only [List.countP_cons]
    rcases hex with ⟨w, hw, hsw, hpw, hqw⟩
    rcases List.mem_cons.mp hw with rfl | hwl
    · have ht := countP_add_le_countP p q s l
        (fun x hx => hps x (List.mem_cons_of_mem _ hx))
        (fun x hx => hqs x (List.mem_cons_of_mem _ hx))
        (fun x hx => hpq x (List.mem_cons_of_mem _ hx))
      have e1 : (if p w = true then 1 else 0) = 0 := by simp [hpw]
      have e2 : (if q w = true then 1 else 0) = 0 := by simp [hqw]
      have e3 : (if s w = true then 1 else 0) = 1 := by simp [hsw]
      omega
    · have ht := ih (fun x hx => hps x (List.mem_cons_of_mem _ hx))
        (fun x hx => hqs x (List.mem_cons_of_mem _ hx))
        (fun x hx => hpq x (List.mem_cons_of_mem _ hx))
        ⟨w, hwl, hsw, hpw, hqw⟩
      have e1 : (if p a = true then 1 else 0) + (if q a = true then 1 else 0)
          ≤ (if s a = true then 1 else 0) := by
        have h1 := hps a (List.mem_cons_self a l)
        have h3 := hpq a (List.mem_cons_self a l)
        cases hpa : p a <;> cases hqa : q a <;> cases hsa : s a <;> simp_all
      omega

theorem isOnTime_hasScheduled (r : DoseRecord) :
    isOnTime r = true → hasScheduled r = true := by
  unfold isOnTime hasScheduled
  cases r.scheduledDate <;> simp

theorem isDelayed_hasScheduled (r : DoseRecord) :
    isDelayed r = true → hasScheduled r = true := by
  unfold isDelayed hasScheduled
  cases r.scheduledDate <;> simp

theorem not_isOnTime_and_isDelayed (r : DoseRecord) :
    ¬(isOnTime r = true ∧ isDelayed r = true) := by
  unfold isOnTime isDelayed
  cases r.scheduledDate with
  | none => simp
  | some s =>
    simp only [beq_iff_eq, decide_eq_true_eq]
    omega

theorem isEarly_facts (r : DoseRecord) (h : isEarly r = true) :
    hasScheduled r = true ∧ isOnTime r = false ∧ isDelayed r = false := by
  unfold isEarly at h
  unfold hasScheduled isOnTime isDelayed
  cases hs : r.scheduledDate with
  | none => rw [hs] at h; simp at h
  | some s =>
    rw [hs] at h
    simp only [decide_eq_true_eq] at h
    refine ⟨rfl, ?_, ?_⟩ <;> simp <;> omega

/-- First record of the spec's worked example: medication "A", recorded
2024-01-01, scheduled 2024-01-01. -/
def rA1 : DoseRecord :=
  ⟨"A", daysFromCivil 2024 1 1, some (daysFromCivil 2024 1 1)⟩

/-- Second record of the spec's worked example: medication "A", recorded
2024-02-05, scheduled 2024-02-01. -/
def rA2 : DoseRecord :=
  ⟨"A", daysFromCivil 2024 2 5, some (daysFromCivil 2024 2 1)⟩

/-- The intended denotation of the statistics query groups by exact
medication name and returns, per group, the record count, the on-time
count (scheduled present and equal to recorded), the delayed count
(scheduled present and recorded strictly after), the mean of consecutive
sorted recorded-date differences (`none` below two records), and the
on-time share of scheduled records times 100 (`none` when no record is
scheduled); on the spec's two-record "A" example this yields totals
2, 1, 1, average 35 and compliance 50. -/
theorem intended_stats_characterization (records : List DoseRecord) (name : String) :
    medicationStats [rA1, rA2]
      = [⟨"A", 2, 1, 1, some 35, some 50⟩]
    ∧ (statsFor records name).medicationName = name
    ∧ (statsFor records name).totalDoses = (recordsFor records name).length
    ∧ (statsFor records name).onTimeDoses = (recordsFor records name).countP isOnTime
    ∧ (statsFor records name).delayedDoses = (recordsFor records name).countP isDelayed
    ∧ ((statsFor records name).averageIntervalDays = none
        ↔ (recordsFor records name).length < 2)
    ∧ (2 ≤ (recordsFor records name).length →
        (statsFor records name).averageIntervalDays
          = some (((consecutiveIntervals (sortedDoseDates (recordsFor records name))).sum : ℚ)
              / (((recordsFor records name).length - 1 : ℕ) : ℚ)))
    ∧ ((statsFor records name).complianceRate = none
        ↔ (recordsFor records name).countP hasScheduled = 0)
    ∧ (0 < (recordsFor records name).countP hasScheduled →
        (statsFor records name).complianceRate
          = some (((recordsFor records name).countP isOnTime : ℚ)
              / ((recordsFor records name).countP hasScheduled : ℚ) * 100)) := by
  have hlen : (consecutiveIntervals (sortedDoseDates (recordsFor records name))).length
      = (recordsFor records name).length - 1 := by
    rw [consecutiveIntervals_length, sortedDoseDates_length]
  refine ⟨?_, rfl, rfl, rfl, rfl, ?_, ?_, ?_, ?_⟩
  · have hnames : medNames [rA1, rA2] = ["A"] := by decide
    have hsort : consecutiveIntervals (sortedDoseDates (recordsFor [rA1, rA2] "A"))
        = [35] := by decide
    have honTime : (recordsFor [rA1, rA2] "A").countP isOnTime = 1 := by decide
    have hdelay : (recordsFor [rA1, rA2] "A").countP isDelayed = 1 := by decide
    have hsched : (recordsFor [rA1, rA2] "A").countP hasScheduled = 2 := by decide
    have hglen : (recordsFor [rA1, rA2] "A").length = 2 := by decide
    simp [medicationStats, hnames, statsFor, hsort, honTime, hdelay, hsched, hglen,
      sqlAvg, complianceRateOf]
    norm_num
  · show sqlAvg (consecutiveIntervals (sortedDoseDates (recordsFor records name))) = none
      ↔ (recordsFor records name).length < 2
    rw [sqlAvg_eq_none_iff, hlen]
    omega
  · intro h2
    show sqlAvg (consecutiveIntervals (sortedDoseDates (recordsFor records name))) = _
    rw [sqlAvg_of_length_ne_zero _ (by omega), hlen]
  · show complianceRateOf ((recordsFor records name).countP isOnTime)
        ((recordsFor records name).countP hasScheduled) = none
      ↔ (recordsFor records name).countP hasScheduled = 0
    unfold complianceRateOf
    split_ifs with hpos
    · constructor
      · intro h
        simp at h
      · intro h0
        exact absurd h0 (by omega)
    · constructor
      · intro _
        omega
      · intro _
        rfl
  · intro hpos
    show complianceRateOf ((recordsFor records name).countP isOnTime)
        ((recordsFor records name).countP hasScheduled) = _
    unfold complianceRateOf
    rw [if_pos hpos]

theorem intended_stats_example :
    2 ≤ (recordsFor [rA1, rA2] "A").length
    ∧ (statsFor [rA1, rA2] "A").averageIntervalDays
        = some (((consecutiveIntervals (sortedDoseDates (recordsFor [rA1, rA2] "A"))).sum : ℚ)
            / (((recordsFor [rA1, rA2] "A").length - 1 : ℕ) : ℚ)) :=
  ⟨by decide, (intended_stats_characterization [rA1, rA2] "A").2.2.2.2.2.2.1 (by decide)⟩

/-- The intended denotation of the statistics query has no error
conditions — the empty record list yields the empty result list, and a
group in which no record has a scheduled date yields a `null` compliance
rate instead of a division by zero.  (The source function itself never
reaches this computation; see `getMedicationStatsCall`.) -/
theorem intended_stats_no_error (records : List DoseRecord) (name : String)
    (h : ∀ r ∈ recordsFor records name, r.scheduledDate = none) :
    medicationStats [] = ([] : List MedicationStats)
    ∧ (statsFor records name).complianceRate = none := by
  refine ⟨rfl, ?_⟩
  have hz : (recordsFor records name).countP hasScheduled = 0 :=
    List.countP_eq_zero.mpr (fun r hr => by simp [hasScheduled, h r hr])
  show complianceRateOf ((recordsFor records name).countP isOnTime)
      ((recordsFor records name).countP hasScheduled) = none
  rw [hz]
  simp [complianceRateOf]

theorem intended_stats_no_error_example :
    medicationStats [] = ([] : List MedicationStats)
    ∧ (statsFor [⟨"U", 3, none⟩] "U").complianceRate = none :=
  ⟨(intended_stats_no_error [⟨"U", 3, none⟩] "U" (by decide)).1,
    (intended_stats_no_error [⟨"U", 3, none⟩] "U" (by decide)).2⟩

/-- In the intended denotation of the statistics query, a record whose
dose was recorded strictly before its scheduled date (an early dose)
counts toward the compliance denominator but neither toward on-time nor
toward delayed doses, so on-time plus delayed never exceeds the
scheduled count, strictly so — with a compliance rate below 100 —
whenever an early dose exists in the group. -/
theorem intended_stats_early_doses (records : List DoseRecord) (name : String) :
    (∀ r ∈ recordsFor records name, isEarly r = true →
        hasScheduled r = true ∧ isOnTime r = false ∧ isDelayed r = false)
    ∧ (statsFor records name).onTimeDoses + (statsFor records name).delayedDoses
        ≤ (recordsFor records name).countP hasScheduled
    ∧ ((∃ r ∈ recordsFor records name, isEarly r = true) →
        (statsFor records name).onTimeDoses + (statsFor records name).delayedDoses
          < (recordsFor records name).countP hasScheduled
        ∧ ∃ v, (statsFor records name).complianceRate = some v ∧ v < 100) := by
  refine ⟨fun r _ he => isEarly_facts r he, ?_, ?_⟩
  · show (recordsFor records name).countP isOnTime
        + (recordsFor records name).countP isDelayed
        ≤ (recordsFor records name).countP hasScheduled
    exact countP_add_le_countP _ _ _ _
      (fun r _ => isOnTime_hasScheduled r)
      (fun r _ => isDelayed_hasScheduled r)
      (fun r _ => not_isOnTime_and_isDelayed r)
  · intro hex
    have hlt : (recordsFor records name).countP isOnTime
        + (recordsFor records name).countP isDelayed
        < (recordsFor records name).countP hasScheduled := by
      refine countP_add_lt_countP _ _ _ _
        (fun r _ => isOnTime_hasScheduled r)
        (fun r _ => isDelayed_hasScheduled r)
        (fun r _ => not_isOnTime_and_isDelayed r) ?_
      obtain ⟨w, hw, he⟩ := hex
      obtain ⟨h1, h2, h3⟩ := isEarly_facts w he
      exact ⟨w, hw, h1, h2, h3⟩
    have hpos : 0 < (recordsFor records name).countP hasScheduled := by omega
    refine ⟨hlt, ⟨((recordsFor records name).countP isOnTime : ℚ)
        / ((recordsFor records name).countP hasScheduled : ℚ) * 100, ?_, ?_⟩⟩
    · show complianceRateOf ((recordsFor records name).countP isOnTime)
          ((recordsFor records name).countP hasScheduled) = _
      unfold complianceRateOf
      rw [if_pos hpos]
    · have hON : ((recordsFor records name).countP isOnTime : ℚ)
          < ((recordsFor records name).countP hasScheduled : ℚ) := by
        exact_mod_cast (by omega :
          (recordsFor records name).countP isOnTime
            < (recordsFor records name).countP hasScheduled)
      have hposQ : (0 : ℚ) < ((recordsFor records name).countP hasScheduled : ℚ) := by
        exact_mod_cast hpos
      calc ((recordsFor records name).countP isOnTime : ℚ)
            / ((recordsFor records name).countP hasScheduled : ℚ) * 100
          < 1 * 100 := by
            apply mul_lt_mul_of_pos_right _ (by norm_num)
            exact (div_lt_one hposQ).mpr hON
        _ = 100 := one_mul 100

theorem intended_stats_early_doses_example :
    (∃ r ∈ recordsFor [⟨"E", 5, some 10⟩] "E", isEarly r = true)
    ∧ (statsFor [⟨"E", 5, some 10⟩] "E").onTimeDoses
        + (statsFor [⟨"E", 5, some 10⟩] "E").delayedDoses
        < (recordsFor [⟨"E", 5, some 10⟩] "E").countP hasScheduled :=
  ⟨by decide, ((intended_stats_early_doses [⟨"E", 5, some 10⟩] "E").2.2 (by decide)).1⟩

/-- C1: the cited source function cannot produce the claimed statistics —
invoking `get_medication_stats` raises the parse-analysis error on the
spec's two-record "A" example, as on any input; the second conjunct
records the row its query text would denote were the query valid, which
matches the claim's numbers (totals 2, 1, 1, average 35, compliance
50). -/
theorem c1_stats_call_errors :
    getMedicationStatsCall [rA1, rA2] = Except.error sqlStatsError
    ∧ medicationStats [rA1, rA2]
        = [⟨"A", 2, 1, 1, some 35, some 50⟩] :=
  ⟨rfl, (intended_stats_characterization [rA1, rA2] "A").1⟩

/-- C6: `get_medication_stats` does have an error condition — it raises
on every call, the empty record set included, so `medicationStats([])`
never returns `[]`; the empty result list holds only of the intended
denotation of its query text (second conjunct). -/
theorem c6_stats_call_errors :
    getMedicationStatsCall [] = Except.error sqlStatsError
    ∧ medicationStats [] = ([] : List MedicationStats) :=
  ⟨rfl, rfl⟩

/-- C9: the early-dose counting the claim describes is never produced —
invoking `get_medication_stats` on a group containing an early dose
raises like any other call; the remaining conjuncts verify the counting
on the intended denotation of the query text: the early record is
scheduled but neither on-time nor delayed, and on-time plus delayed
doses fall strictly below the scheduled count. -/
theorem c9_stats_call_errors :
    getMedicationStatsCall [⟨"E", 5, some 10⟩] = Except.error sqlStatsError
    ∧ isEarly ⟨"E", 5, some 10⟩ = true
    ∧ hasScheduled ⟨"E", 5, some 10⟩ = true
    ∧ isOnTime ⟨"E", 5, some 10⟩ = false
    ∧ isDelayed ⟨"E", 5, some 10⟩ = false
    ∧ (statsFor [⟨"E", 5, some 10⟩] "E").onTimeDoses
        + (statsFor [⟨"E", 5, some 10⟩] "E").delayedDoses
        < (recordsFor [⟨"E", 5, some 10⟩] "E").countP hasScheduled :=
  ⟨rfl, by decide, by decide, by decide, by decide, by decide⟩
